import Mathlib

/-!
Verification of the task CRUD core of the todo application.

Shallow embedding of the task data model, validators, repository and the
frontend client layer of the repository, with theorems settling the
specification's claims about them.

Sources embedded:
* `src/specs/data-model.md` — the Phase-I in-memory store (`MemoryStore`)
  with its `create`, `get`, `get_all`, `update`, `delete`,
  `toggle_completion` operations, the `validate_title` /
  `validate_description` validators and the id generation strategy.
* `src/frontend/src/lib/api.ts` — the HTTP client layer (`getAuthHeaders`
  and the request builders for every task and chat operation).
* `src/frontend/src/components/chatbot.tsx` — the chat widget's own
  `sendMessage` request.
* the dashboard component (`handleCreateTask`, `setTasks([task, ...tasks])`).

The owner-scoped repository and service (the Phase-II FastAPI backend) are
not part of the repository's files; they are modelled from the
specification's words where a claim needs them, and each such definition
says so in its doc comment.

Timestamps are modelled as natural numbers (`datetime.utcnow()` becomes an
explicit clock argument `now : Nat`).
-/

/-- Python's `str.strip()`: remove leading and trailing whitespace
characters from the string, viewed as its list of characters. -/
def pyStrip (s : String) : String :=
  ⟨((s.data.dropWhile Char.isWhitespace).reverse.dropWhile Char.isWhitespace).reverse⟩

/-- `validate_title` from `src/specs/data-model.md`:
`if not title or len(title.strip()) == 0` raises "Title cannot be empty";
`if len(title) > 200` raises "Title cannot exceed 200 characters".
Note the length check is on the raw, untrimmed title. -/
def validate_title (title : String) : Except String Unit :=
  if title.length = 0 ∨ (pyStrip title).length = 0 then
    .error "Title cannot be empty"
  else if title.length > 200 then
    .error "Title cannot exceed 200 characters"
  else
    .ok ()

/-- `validate_description` from `src/specs/data-model.md`:
`if len(description) > 1000` raises "Description cannot exceed 1000
characters"; the empty description is valid. -/
def validate_description (description : String) : Except String Unit :=
  if description.length > 1000 then
    .error "Description cannot exceed 1000 characters"
  else
    .ok ()

/-- A title of 200 `a`s followed by one space: its trimmed length is
exactly 200, its raw length 201. -/
def titleTrim200 : String := ⟨List.replicate 200 'a' ++ [' ']⟩

set_option maxRecDepth 4096

/-! ## The Phase-I in-memory store (`src/specs/data-model.md`)

`MemoryStore` holds `self._tasks: dict[int, Task]` and `self._next_id`.
A Python dict keyed by the task id is insertion-ordered, keeps a key's
position on reassignment and removes it on `del`, so it is embedded as the
list of tasks in insertion order (the key of a task is its `id` field).

Everything lives in the `Todo` namespace because the name `Task` is taken
by the core library. -/

namespace Todo

/-- The `Task` dataclass of `src/specs/data-model.md`. -/
structure Task where
  id : Nat
  title : String
  description : String
  completed : Bool
  created_at : Nat
  updated_at : Nat
deriving Repr, DecidableEq

/-- The `MemoryStore` of `src/specs/data-model.md`: tasks in insertion
order plus the auto-increment counter `_next_id`. -/
structure MemoryStore where
  tasks : List Task
  next_id : Nat
deriving Repr, DecidableEq

/-- `MemoryStore.__init__`: no tasks, `_next_id = 1`. -/
def MemoryStore.init : MemoryStore := ⟨[], 1⟩

/-- `_generate_id`: return the current `_next_id` and increment it. -/
def MemoryStore.generate_id (s : MemoryStore) : Nat × MemoryStore :=
  (s.next_id, { s with next_id := s.next_id + 1 })

/-- `create` from `src/specs/data-model.md`: fresh id, stripped fields,
`completed=False`, `created_at = updated_at = now`, stored under the new
key (a fresh dict key is appended at the end). -/
def MemoryStore.create (s : MemoryStore) (title : String)
    (description : String := "") (now : Nat := 0) : Task × MemoryStore :=
  let (task_id, s) := s.generate_id
  let task : Task :=
    { id := task_id, title := pyStrip title, description := pyStrip description,
      completed := false, created_at := now, updated_at := now }
  (task, { s with tasks := s.tasks ++ [task] })

/-- `get` from `src/specs/data-model.md`: `self._tasks.get(task_id)`. -/
def MemoryStore.get (s : MemoryStore) (task_id : Nat) : Option Task :=
  s.tasks.find? (fun t => t.id == task_id)

/-- `get_all` from `src/specs/data-model.md`: `list(self._tasks.values())`. -/
def MemoryStore.get_all (s : MemoryStore) : List Task :=
  s.tasks

/-- `update` from `src/specs/data-model.md`: `TaskNotFoundError` when the
id is absent, otherwise a new record with the stripped new fields, the old
`id`, `completed`, `created_at` and `updated_at = now`, reassigned to the
same key (keeping its position). -/
def MemoryStore.update (s : MemoryStore) (task_id : Nat)
    (title description : String) (now : Nat) : Except String (Task × MemoryStore) :=
  match s.get task_id with
  | none => .error ("Task " ++ toString task_id ++ " not found")
  | some task =>
    let updated_task : Task :=
      { id := task.id, title := pyStrip title, description := pyStrip description,
        completed := task.completed, created_at := task.created_at,
        updated_at := now }
    .ok (updated_task,
      { s with tasks := s.tasks.map fun t => if t.id == task_id then updated_task else t })

/-- `delete` from `src/specs/data-model.md`: remove the key and return
`True` when present, return `False` otherwise. -/
def MemoryStore.delete (s : MemoryStore) (task_id : Nat) : Bool × MemoryStore :=
  if s.tasks.any (fun t => t.id == task_id) then
    (true, { s with tasks := s.tasks.filter fun t => !(t.id == task_id) })
  else
    (false, s)

/-- `toggle_completion` from `src/specs/data-model.md`: `TaskNotFoundError`
when absent, otherwise the record with `completed = not task.completed` and
`updated_at = now`, reassigned to the same key. -/
def MemoryStore.toggle_completion (s : MemoryStore) (task_id : Nat)
    (now : Nat) : Except String (Task × MemoryStore) :=
  match s.get task_id with
  | none => .error ("Task " ++ toString task_id ++ " not found")
  | some task =>
    let updated_task : Task :=
      { id := task.id, title := task.title, description := task.description,
        completed := !task.completed, created_at := task.created_at,
        updated_at := now }
    .ok (updated_task,
      { s with tasks := s.tasks.map fun t => if t.id == task_id then updated_task else t })

/-! ### Traces of store operations

To speak about ids that were ever issued — also those of tasks deleted
since — we run the store along an explicit list of operations. -/

/-- One call into the Phase-I store. -/
inductive MemOp where
  | create (title description : String) (now : Nat)
  | update (task_id : Nat) (title description : String) (now : Nat)
  | delete (task_id : Nat)
  | toggle (task_id : Nat) (now : Nat)
deriving Repr, DecidableEq

/-- Run one operation, keeping the state unchanged on a raised error. -/
def MemoryStore.exec (s : MemoryStore) : MemOp → MemoryStore
  | .create title description now => (s.create title description now).2
  | .update task_id title description now =>
    match s.update task_id title description now with
    | .ok (_, s') => s'
    | .error _ => s
  | .delete task_id => (s.delete task_id).2
  | .toggle task_id now =>
    match s.toggle_completion task_id now with
    | .ok (_, s') => s'
    | .error _ => s

/-- Run a list of operations from a given state. -/
def MemoryStore.run (s : MemoryStore) : List MemOp → MemoryStore
  | [] => s
  | op :: ops => (s.exec op).run ops

/-- The ids handed out by `create` along a trace, in order. -/
def MemoryStore.issuedIds (s : MemoryStore) : List MemOp → List Nat
  | [] => []
  | op :: ops =>
    (match op with
     | .create _ _ _ => [s.next_id]
     | _ => []) ++ (s.exec op).issuedIds ops

/-- No operation decreases the id counter. -/
theorem MemoryStore.next_id_le_exec (s : MemoryStore) (op : MemOp) :
    s.next_id ≤ (s.exec op).next_id := by
  cases op with
  | create title description now => exact Nat.le_succ _
  | update task_id title description now =>
    simp only [MemoryStore.exec, MemoryStore.update]
    cases s.get task_id <;> simp
  | delete task_id =>
    simp only [MemoryStore.exec, MemoryStore.delete]
    split <;> simp
  | toggle task_id now =>
    simp only [MemoryStore.exec, MemoryStore.toggle_completion]
    cases s.get task_id <;> simp

/-- Running a trace never decreases the id counter. -/
theorem MemoryStore.next_id_le_run (s : MemoryStore) (ops : List MemOp) :
    s.next_id ≤ (s.run ops).next_id := by
  induction ops generalizing s with
  | nil => exact Nat.le_refl _
  | cons op ops ih =>
    exact Nat.le_trans (s.next_id_le_exec op) (ih (s.exec op))

/-- Every id issued along a trace stays below the final id counter. -/
theorem MemoryStore.issued_lt_next_id (s : MemoryStore) (ops : List MemOp)
    (i : Nat) (hi : i ∈ s.issuedIds ops) : i < (s.run ops).next_id := by
  induction ops generalizing s with
  | nil => simp [MemoryStore.issuedIds] at hi
  | cons op ops ih =>
    simp only [MemoryStore.issuedIds, List.mem_append] at hi
    rcases hi with hi | hi
    · cases op with
      | create title description now =>
        simp only [List.mem_singleton] at hi
        subst hi
        have h1 : s.next_id < (s.exec (.create title description now)).next_id :=
          Nat.lt_succ_self _
        exact Nat.lt_of_lt_of_le h1 ((s.exec _).next_id_le_run ops)
      | update task_id title description now => simp at hi
      | delete task_id => simp at hi
      | toggle task_id now => simp at hi
    · exact ih (s.exec op) hi

/-- C3: `create` returns a task with `completed = false`,
`created_at = updated_at`, and an id that no earlier `create` of the trace
ever issued — deleted tasks' ids included, since `issuedIds` records every
id at the moment it is handed out. -/
theorem create_issues_fresh_id_and_defaults (ops : List MemOp)
    (title description : String) (now : Nat) :
    ((MemoryStore.init.run ops).create title description now).1.completed = false ∧
    ((MemoryStore.init.run ops).create title description now).1.created_at
      = ((MemoryStore.init.run ops).create title description now).1.updated_at ∧
    ((MemoryStore.init.run ops).create title description now).1.id
      ∉ MemoryStore.init.issuedIds ops := by
  refine ⟨rfl, rfl, fun hmem => ?_⟩
  have h := MemoryStore.issued_lt_next_id MemoryStore.init ops _ hmem
  exact Nat.lt_irrefl _ h

/-- A string of length zero strips to a string of length zero. -/
theorem pyStrip_of_length_zero (s : String) (h : s.length = 0) :
    (pyStrip s).length = 0 := by
  have hd : s.data = [] := List.length_eq_zero.mp h
  simp [pyStrip, String.length, hd]

/-- C4 (amended): `validate_title` accepts exactly the titles that are
nonempty after stripping and whose raw (unstripped) length is at most
200. -/
theorem validate_title_ok_iff (title : String) :
    validate_title title = .ok () ↔
      (pyStrip title).length ≠ 0 ∧ title.length ≤ 200 := by
  unfold validate_title
  split
  · rename_i h
    constructor
    · intro hc
      exact Except.noConfusion hc
    · rintro ⟨hstrip, _⟩
      rcases h with h | h
      · exact absurd (pyStrip_of_length_zero title h) hstrip
      · exact absurd h hstrip
  · rename_i h
    push_neg at h
    split
    · rename_i h200
      constructor
      · intro hc
        exact Except.noConfusion hc
      · rintro ⟨_, hle⟩
        exact absurd h200 (Nat.not_lt.mpr hle)
    · rename_i h200
      simp only [Nat.not_lt] at h200
      simp [h.2, h200]

/-! ## The owner-scoped repository and service

The Phase-II FastAPI backend (`backend/routes.py`, `backend/models.py`) is
not among this repository's files — only its HTTP callers in
`src/frontend/src/lib/api.ts` are. The owner-scoped operations below are
therefore modelled from the specification (§3, §4.2, §4.3): every
operation filters on `owner_id`, ids are assigned by an auto-increment
counter and never reused, and the service validates title before
description. Field names follow the `Task` interface of `api.ts`
(`user_id` for the owner). -/

/-- Modelled from the spec: the owner-scoped task row (§3 of the spec, the
`Task` interface of `src/frontend/src/lib/api.ts`). -/
structure OwnedTask where
  id : Nat
  user_id : String
  title : String
  description : String
  completed : Bool
  created_at : Nat
  updated_at : Nat
deriving Repr, DecidableEq

/-- The error taxonomy of the spec (§7); `StorageError` never arises in
the in-memory model. -/
inductive ApiError where
  | NotFoundError : ApiError
  | ValidationError : String → ApiError
deriving Repr, DecidableEq

/-- Modelled from the spec: the owner-scoped repository state — rows in
insertion order plus the id counter (ids "are never reused even after
deletion", §3). -/
structure TaskRepo where
  tasks : List OwnedTask
  next_id : Nat
deriving Repr, DecidableEq

/-- The empty repository. -/
def TaskRepo.init : TaskRepo := ⟨[], 1⟩

/-- Whether a row matches the addressed `(owner_id, task_id)` pair. -/
def rowMatch (owner_id : String) (task_id : Nat) (t : OwnedTask) : Bool :=
  t.id == task_id && t.user_id == owner_id

/-- Modelled from the spec: `Repository.create` (§4.2) — assigns a new
unique id, sets `completed=false`, stamps `created_at = updated_at = now`,
never fails. -/
def TaskRepo.create (s : TaskRepo) (owner_id title description : String)
    (now : Nat) : OwnedTask × TaskRepo :=
  let task : OwnedTask :=
    { id := s.next_id, user_id := owner_id, title := title,
      description := description, completed := false,
      created_at := now, updated_at := now }
  (task, { tasks := s.tasks ++ [task], next_id := s.next_id + 1 })

/-- Modelled from the spec: `Repository.get` (§4.2) — the task only if it
exists and belongs to `owner_id`; a task owned by another user is
indistinguishable from a non-existent one. -/
def TaskRepo.get (s : TaskRepo) (owner_id : String) (task_id : Nat) :
    Option OwnedTask :=
  s.tasks.find? (rowMatch owner_id task_id)

/-- Modelled from the spec: `Repository.list` (§4.2) — all tasks owned by
`owner_id`, in insertion (creation) order. -/
def TaskRepo.list (s : TaskRepo) (owner_id : String) : List OwnedTask :=
  s.tasks.filter (fun t => t.user_id == owner_id)

/-- Modelled from the spec: `Repository.update` (§4.2) — `NotFoundError`
if no matching owned task exists; otherwise replaces `title` and
`description`, preserves `id`, `owner_id`, `completed`, `created_at`, and
refreshes `updated_at`. -/
def TaskRepo.update (s : TaskRepo) (owner_id : String) (task_id : Nat)
    (title description : String) (now : Nat) :
    Except ApiError (OwnedTask × TaskRepo) :=
  match s.get owner_id task_id with
  | none => .error .NotFoundError
  | some task =>
    let updated : OwnedTask :=
      { task with title := title, description := description, updated_at := now }
    .ok (updated,
      { s with tasks := s.tasks.map fun t =>
          if rowMatch owner_id task_id t then updated else t })

/-- Modelled from the spec: `Repository.set_completed` (§4.2) —
`NotFoundError` if no matching owned task exists; otherwise sets
`completed` to the given value (also when it already has that value) and
refreshes `updated_at`. -/
def TaskRepo.set_completed (s : TaskRepo) (owner_id : String)
    (task_id : Nat) (completed : Bool) (now : Nat) :
    Except ApiError (OwnedTask × TaskRepo) :=
  match s.get owner_id task_id with
  | none => .error .NotFoundError
  | some task =>
    let updated : OwnedTask :=
      { task with completed := completed, updated_at := now }
    .ok (updated,
      { s with tasks := s.tasks.map fun t =>
          if rowMatch owner_id task_id t then updated else t })

/-- Modelled from the spec: `Repository.delete` (§4.2) — removes the task
if present and owned; returns whether a row was actually removed, never an
error. -/
def TaskRepo.delete (s : TaskRepo) (owner_id : String) (task_id : Nat) :
    Bool × TaskRepo :=
  if s.tasks.any (rowMatch owner_id task_id) then
    (true, { s with tasks := s.tasks.filter fun t => !(rowMatch owner_id task_id t) })
  else
    (false, s)

/-- Modelled from the spec: `Service.create_task` (§4.3) — validates the
title first, then the description, then delegates to `Repository.create`
with the fields trimmed once at the validation boundary (§4.1). -/
def create_task (s : TaskRepo) (owner_id title description : String)
    (now : Nat) : Except ApiError (OwnedTask × TaskRepo) :=
  match validate_title title with
  | .error msg => .error (.ValidationError msg)
  | .ok () =>
    match validate_description description with
    | .error msg => .error (.ValidationError msg)
    | .ok () => .ok (s.create owner_id (pyStrip title) (pyStrip description) now)

/-- Modelled from the spec: `Service.get_task` (§4.3) — delegates to
`Repository.get`, `NotFoundError` if absent. -/
def get_task (s : TaskRepo) (owner_id : String) (task_id : Nat) :
    Except ApiError OwnedTask :=
  match s.get owner_id task_id with
  | none => .error .NotFoundError
  | some task => .ok task

/-- Modelled from the spec: `Service.list_tasks` (§4.3) — delegates
directly. -/
def list_tasks (s : TaskRepo) (owner_id : String) : List OwnedTask :=
  s.list owner_id

/-- Modelled from the spec: `Service.update_task` (§4.3) — validates
title then description, then delegates to `Repository.update` with the
trimmed fields. -/
def update_task (s : TaskRepo) (owner_id : String) (task_id : Nat)
    (title description : String) (now : Nat) :
    Except ApiError (OwnedTask × TaskRepo) :=
  match validate_title title with
  | .error msg => .error (.ValidationError msg)
  | .ok () =>
    match validate_description description with
    | .error msg => .error (.ValidationError msg)
    | .ok () => s.update owner_id task_id (pyStrip title) (pyStrip description) now

/-- Modelled from the spec: `Service.toggle_completion` (§4.3) — no field
validation; delegates to `Repository.set_completed`. -/
def toggle_completion (s : TaskRepo) (owner_id : String) (task_id : Nat)
    (completed : Bool) (now : Nat) : Except ApiError (OwnedTask × TaskRepo) :=
  s.set_completed owner_id task_id completed now

/-- Modelled from the spec: `Service.delete_task` (§4.3) — delegates to
`Repository.delete`; returns `false` rather than raising when nothing was
deleted. -/
def delete_task (s : TaskRepo) (owner_id : String) (task_id : Nat) :
    Bool × TaskRepo :=
  s.delete owner_id task_id

/-! ### Traces of service calls and the repository invariant -/

/-- One call into the owner-scoped service. -/
inductive RepoOp where
  | create (owner_id title description : String) (now : Nat)
  | update (owner_id : String) (task_id : Nat) (title description : String) (now : Nat)
  | set_completed (owner_id : String) (task_id : Nat) (completed : Bool) (now : Nat)
  | delete (owner_id : String) (task_id : Nat)
deriving Repr, DecidableEq

/-- Run one service call, keeping the state unchanged on an error. -/
def TaskRepo.exec (s : TaskRepo) : RepoOp → TaskRepo
  | .create owner_id title description now =>
    match create_task s owner_id title description now with
    | .ok (_, s') => s'
    | .error _ => s
  | .update owner_id task_id title description now =>
    match update_task s owner_id task_id title description now with
    | .ok (_, s') => s'
    | .error _ => s
  | .set_completed owner_id task_id completed now =>
    match toggle_completion s owner_id task_id completed now with
    | .ok (_, s') => s'
    | .error _ => s
  | .delete owner_id task_id => (delete_task s owner_id task_id).2

/-- Run a list of service calls from a given state. -/
def TaskRepo.run (s : TaskRepo) : List RepoOp → TaskRepo
  | [] => s
  | op :: ops => (s.exec op).run ops

/-- The repository invariant: rows are stored in strictly increasing id
order (ids are assigned by the counter in creation order), and every
stored id is below the counter. -/
def TaskRepo.Inv (s : TaskRepo) : Prop :=
  s.tasks.Pairwise (fun a b => a.id < b.id) ∧ ∀ t ∈ s.tasks, t.id < s.next_id

/-- `rowMatch` decoded into propositions. -/
theorem rowMatch_iff (owner_id : String) (task_id : Nat) (t : OwnedTask) :
    rowMatch owner_id task_id t = true ↔ t.id = task_id ∧ t.user_id = owner_id := by
  simp [rowMatch]

/-- Replacing the matched row by a row with the matched id leaves the list
of ids unchanged. -/
theorem map_replace_ids (l : List OwnedTask) (owner_id : String)
    (task_id : Nat) (u : OwnedTask) (hu : u.id = task_id) :
    (l.map fun t => if rowMatch owner_id task_id t then u else t).map (·.id)
      = l.map (·.id) := by
  induction l with
  | nil => rfl
  | cons a tl ih =>
    by_cases h : rowMatch owner_id task_id a = true
    · have ha : a.id = task_id := ((rowMatch_iff _ _ _).mp h).1
      simp [h, hu, ha, ih]
    · simp [h, ih]

/-- The row found by `get` is a stored row matching the address. -/
theorem get_some_mem (s : TaskRepo) (owner_id : String) (task_id : Nat)
    (t : OwnedTask) (h : s.get owner_id task_id = some t) :
    t ∈ s.tasks ∧ t.id = task_id ∧ t.user_id = owner_id :=
  ⟨List.mem_of_find?_eq_some h, (rowMatch_iff _ _ _).mp (List.find?_some h)⟩

/-- The invariant survives an in-place row replacement keyed by the
matched id. -/
theorem TaskRepo.Inv.replace (s : TaskRepo) (h : s.Inv) (owner_id : String)
    (task_id : Nat) (task u : OwnedTask)
    (hget : s.get owner_id task_id = some task) (hu : u.id = task.id) :
    TaskRepo.Inv
      { s with tasks := s.tasks.map fun t =>
          if rowMatch owner_id task_id t then u else t } := by
  obtain ⟨hmem, hid, _⟩ := get_some_mem s owner_id task_id task hget
  have hui : u.id = task_id := hu.trans hid
  have hids := map_replace_ids s.tasks owner_id task_id u hui
  constructor
  · have h1 : (s.tasks.map (·.id)).Pairwise (· < ·) := by
      rw [List.pairwise_map]
      exact h.1
    have h2 := hids ▸ h1
    rw [List.pairwise_map] at h2
    exact h2
  · intro t ht
    obtain ⟨x, hx, hxt⟩ := List.mem_map.mp ht
    by_cases hr : rowMatch owner_id task_id x = true
    · simp only [hr, if_true] at hxt
      subst hxt
      exact hu ▸ h.2 task hmem
    · rw [if_neg hr] at hxt
      subst hxt
      exact h.2 x hx

/-- The invariant survives every service call. -/
theorem TaskRepo.Inv.exec (s : TaskRepo) (h : s.Inv) (op : RepoOp) :
    (s.exec op).Inv := by
  cases op with
  | create owner_id title description now =>
    simp only [TaskRepo.exec, create_task]
    cases validate_title title with
    | error msg => exact h
    | ok _ =>
      cases validate_description description with
      | error msg => exact h
      | ok _ =>
        simp only [TaskRepo.create]
        constructor
        · rw [List.pairwise_append]
          refine ⟨h.1, List.pairwise_singleton _ _, ?_⟩
          intro a ha b hb
          rw [List.mem_singleton] at hb
          subst hb
          exact h.2 a ha
        · intro t ht
          rw [List.mem_append, List.mem_singleton] at ht
          rcases ht with ht | ht
          · exact Nat.lt_succ_of_lt (h.2 t ht)
          · subst ht
            exact Nat.lt_succ_self _
  | update owner_id task_id title description now =>
    simp only [TaskRepo.exec, update_task]
    cases validate_title title with
    | error msg => exact h
    | ok _ =>
      cases validate_description description with
      | error msg => exact h
      | ok _ =>
        simp only [TaskRepo.update]
        cases hget : s.get owner_id task_id with
        | none => exact h
        | some task => exact h.replace s owner_id task_id task _ hget rfl
  | set_completed owner_id task_id completed now =>
    simp only [TaskRepo.exec, toggle_completion, TaskRepo.set_completed]
    cases hget : s.get owner_id task_id with
    | none => exact h
    | some task => exact h.replace s owner_id task_id task _ hget rfl
  | delete owner_id task_id =>
    simp only [TaskRepo.exec, delete_task, TaskRepo.delete]
    split
    · constructor
      · exact h.1.sublist (List.filter_sublist _)
      · intro t ht
        exact h.2 t (List.mem_of_mem_filter ht)
    · exact h

/-- Every state reached from the empty repository satisfies the
invariant. -/
theorem TaskRepo.Inv.run (ops : List RepoOp) : (TaskRepo.init.run ops).Inv := by
  suffices h : ∀ s : TaskRepo, s.Inv → (s.run ops).Inv by
    exact h TaskRepo.init ⟨List.Pairwise.nil, by intro t ht; cases ht⟩
  induction ops with
  | nil => exact fun s hs => hs
  | cons op ops ih => exact fun s hs => ih (s.exec op) (hs.exec s op)

/-- Under strictly increasing ids, a stored id determines the row. -/
theorem pairwise_id_unique {l : List OwnedTask}
    (hp : l.Pairwise fun a b => a.id < b.id) {x y : OwnedTask}
    (hx : x ∈ l) (hy : y ∈ l) (hid : x.id = y.id) : x = y := by
  induction l with
  | nil => cases hx
  | cons a tl ih =>
    rw [List.pairwise_cons] at hp
    rcases List.mem_cons.mp hx with hx1 | hx1 <;>
      rcases List.mem_cons.mp hy with hy1 | hy1
    · exact hx1.trans hy1.symm
    · have hlt : a.id < y.id := hp.1 y hy1
      rw [← hx1, hid] at hlt
      exact absurd hlt (Nat.lt_irrefl _)
    · have hlt : a.id < x.id := hp.1 x hx1
      rw [← hy1, ← hid] at hlt
      exact absurd hlt (Nat.lt_irrefl _)
    · exact ih hp.2 hx1 hy1

/-- Replacing the found row by a row that still satisfies the search
predicate makes `find?` return the replacement. -/
theorem find?_replace (l : List OwnedTask) (p : OwnedTask → Bool)
    (u t : OwnedTask) (h : l.find? p = some t) (hu : p u = true) :
    (l.map fun x => if p x then u else x).find? p = some u := by
  induction l with
  | nil => cases h
  | cons a tl ih =>
    by_cases hp : p a = true
    · simp only [List.map_cons, if_pos hp]
      exact List.find?_cons_of_pos _ hu
    · rw [List.find?_cons_of_neg _ hp] at h
      simp only [List.map_cons, if_neg hp]
      rw [List.find?_cons_of_neg _ hp]
      exact ih h

/-- C1: when the addressed owned task exists, setting `completed := true`
succeeds, and doing it again on the result succeeds as well; both calls
return `completed = true` and each refreshes `updated_at` to its own
clock value, so the operation is idempotent on the `completed` field. -/
theorem toggle_completion_true_idempotent (s : TaskRepo)
    (owner_id : String) (task_id : Nat) (t : OwnedTask) (now₁ now₂ : Nat)
    (h : s.get owner_id task_id = some t) :
    ∃ t₁ s₁ t₂ s₂,
      toggle_completion s owner_id task_id true now₁ = .ok (t₁, s₁) ∧
      toggle_completion s₁ owner_id task_id true now₂ = .ok (t₂, s₂) ∧
      t₁.completed = true ∧ t₁.updated_at = now₁ ∧
      t₂.completed = true ∧ t₂.updated_at = now₂ := by
  have hrow : rowMatch owner_id task_id t = true := List.find?_some h
  have hrow₁ : rowMatch owner_id task_id
      { t with completed := true, updated_at := now₁ } = true := hrow
  have hget₁ : (s.tasks.map fun x => if rowMatch owner_id task_id x then
      { t with completed := true, updated_at := now₁ } else x).find?
        (rowMatch owner_id task_id)
      = some { t with completed := true, updated_at := now₁ } :=
    find?_replace s.tasks (rowMatch owner_id task_id) _ t h hrow₁
  refine ⟨{ t with completed := true, updated_at := now₁ },
    { s with tasks := s.tasks.map fun x => if rowMatch owner_id task_id x then
        { t with completed := true, updated_at := now₁ } else x },
    { t with completed := true, updated_at := now₂ },
    { tasks := (s.tasks.map fun x => if rowMatch owner_id task_id x then
          { t with completed := true, updated_at := now₁ } else x).map
        fun x => if rowMatch owner_id task_id x then
          { t with completed := true, updated_at := now₂ } else x,
      next_id := s.next_id },
    ?_, ?_, rfl, rfl, rfl, rfl⟩
  · simp only [toggle_completion, TaskRepo.set_completed, h]
  · simp only [toggle_completion, TaskRepo.set_completed, TaskRepo.get, hget₁]

/-- A one-task store owned by user `A`, for the concrete witnesses. -/
def c1Task : OwnedTask :=
  { id := 1, user_id := "A", title := "Buy groceries", description := "",
    completed := false, created_at := 0, updated_at := 0 }

/-- The store holding exactly `c1Task`. -/
def c1Store : TaskRepo := ⟨[c1Task], 2⟩

/-- C1 witness: the double completion on a concrete one-task store. -/
theorem toggle_completion_true_idempotent_witness :
    ∃ t₁ s₁ t₂ s₂,
      toggle_completion c1Store "A" 1 true 5 = .ok (t₁, s₁) ∧
      toggle_completion s₁ "A" 1 true 9 = .ok (t₂, s₂) ∧
      t₁.completed = true ∧ t₁.updated_at = 5 ∧
      t₂.completed = true ∧ t₂.updated_at = 9 :=
  toggle_completion_true_idempotent c1Store "A" 1 c1Task 5 9 (by rfl)

/-- C2: in any state reachable from the empty repository, looking up a
task owned by `B` while presenting a different owner `A` fails with
`NotFoundError` — cross-owner lookups are indistinguishable from lookups
of absent tasks. -/
theorem get_task_cross_owner_not_found (ops : List RepoOp) (A B : String)
    (t : OwnedTask) (ht : t ∈ (TaskRepo.init.run ops).tasks)
    (hB : t.user_id = B) (hAB : A ≠ B) :
    get_task (TaskRepo.init.run ops) A t.id = .error .NotFoundError := by
  have hInv := TaskRepo.Inv.run ops
  have hnone : (TaskRepo.init.run ops).get A t.id = none := by
    rw [TaskRepo.get]
    apply List.find?_eq_none.mpr
    intro x hxmem hrow
    rw [rowMatch_iff] at hrow
    have hx : x = t := pairwise_id_unique hInv.1 hxmem ht hrow.1
    rw [hx] at hrow
    exact hAB (hrow.2.symm.trans hB)
  simp [get_task, hnone]

/-- The trace creating one task for owner `B`. -/
def c2Ops : List RepoOp := [RepoOp.create "B" "Buy groceries" "" 0]

/-- The task that trace stores. -/
def c2Task : OwnedTask :=
  { id := 1, user_id := "B", title := "Buy groceries", description := "",
    completed := false, created_at := 0, updated_at := 0 }

/-- C2 witness: owner `A` cannot see the task owner `B` created. -/
theorem get_task_cross_owner_not_found_witness :
    get_task (TaskRepo.init.run c2Ops) "A" 1 = .error .NotFoundError :=
  get_task_cross_owner_not_found c2Ops "A" "B" c2Task (by decide) rfl (by decide)

/-- C5: a successful `update_task` on an existing owned task preserves
`id`, `user_id`, `completed` and `created_at`, replaces the text fields,
sets `updated_at` to the fresh clock value — strictly increasing it
whenever the clock advanced — and leaves every non-matching row in
place. -/
theorem update_task_preserves_identity (s : TaskRepo) (owner_id : String)
    (task_id : Nat) (title description : String) (now : Nat)
    (t u : OwnedTask) (s' : TaskRepo)
    (hget : s.get owner_id task_id = some t)
    (hok : update_task s owner_id task_id title description now = .ok (u, s'))
    (hclock : t.updated_at < now) :
    u.id = t.id ∧ u.user_id = t.user_id ∧ u.completed = t.completed ∧
    u.created_at = t.created_at ∧ u.updated_at = now ∧
    t.updated_at < u.updated_at ∧
    u.title = pyStrip title ∧ u.description = pyStrip description ∧
    ∀ x ∈ s.tasks, rowMatch owner_id task_id x = false → x ∈ s'.tasks := by
  cases hvt : validate_title title with
  | error msg => simp [update_task, hvt] at hok
  | ok _ =>
    cases hvd : validate_description description with
    | error msg => simp [update_task, hvt, hvd] at hok
    | ok _ =>
      simp only [update_task, hvt, hvd, TaskRepo.update, hget] at hok
      rw [Except.ok.injEq, Prod.mk.injEq] at hok
      obtain ⟨hu, hs'⟩ := hok
      subst hu
      subst hs'
      refine ⟨rfl, rfl, rfl, rfl, rfl, hclock, rfl, rfl, ?_⟩
      intro x hx hxrow
      refine List.mem_map.mpr ⟨x, hx, ?_⟩
      simp [hxrow]

/-- A one-task store for the C5 witness. -/
def c5Task : OwnedTask :=
  { id := 1, user_id := "A", title := "Old", description := "old",
    completed := false, created_at := 0, updated_at := 0 }

/-- The store holding exactly `c5Task`. -/
def c5Store : TaskRepo := ⟨[c5Task], 2⟩

/-- `c5Task` after the update at clock value 5. -/
def c5Updated : OwnedTask :=
  { id := 1, user_id := "A", title := "New", description := "newer",
    completed := false, created_at := 0, updated_at := 5 }

/-- The store after the update. -/
def c5StoreAfter : TaskRepo := ⟨[c5Updated], 2⟩

/-- C5 witness: a concrete update preserving identity fields. -/
theorem update_task_preserves_identity_witness :
    c5Updated.id = c5Task.id ∧ c5Updated.user_id = c5Task.user_id ∧
    c5Updated.completed = c5Task.completed ∧
    c5Updated.created_at = c5Task.created_at ∧ c5Updated.updated_at = 5 ∧
    c5Task.updated_at < c5Updated.updated_at ∧
    c5Updated.title = pyStrip "New" ∧ c5Updated.description = pyStrip "newer" ∧
    ∀ x ∈ c5Store.tasks, rowMatch "A" 1 x = false → x ∈ c5StoreAfter.tasks :=
  update_task_preserves_identity c5Store "A" 1 "New" "newer" 5
    c5Task c5Updated c5StoreAfter (by rfl) (by rfl) (by decide)

/-- A matched row's absence, decoded. -/
theorem rowMatch_eq_false_iff (owner_id : String) (task_id : Nat)
    (t : OwnedTask) :
    rowMatch owner_id task_id t = false ↔
      ¬(t.id = task_id ∧ t.user_id = owner_id) := by
  rw [← Bool.not_eq_true, rowMatch_iff]

/-- C6: `delete_task` is a total function returning a boolean — it never
raises. The boolean is `true` exactly when a matching owned row existed;
on `false` the store is unchanged; on either outcome the result contains
no matching row and keeps every non-matching row. -/
theorem delete_task_reports_removal (s : TaskRepo) (owner_id : String)
    (task_id : Nat) :
    ((delete_task s owner_id task_id).1 = true ↔
      ∃ t ∈ s.tasks, t.id = task_id ∧ t.user_id = owner_id) ∧
    ((delete_task s owner_id task_id).1 = false →
      (delete_task s owner_id task_id).2 = s) ∧
    (∀ t ∈ (delete_task s owner_id task_id).2.tasks,
      ¬(t.id = task_id ∧ t.user_id = owner_id)) ∧
    (∀ t ∈ s.tasks, ¬(t.id = task_id ∧ t.user_id = owner_id) →
      t ∈ (delete_task s owner_id task_id).2.tasks) := by
  simp only [delete_task, TaskRepo.delete]
  by_cases h : s.tasks.any (rowMatch owner_id task_id) = true
  · rw [if_pos h]
    refine ⟨?_, ?_, ?_, ?_⟩
    · constructor
      · intro _
        obtain ⟨x, hx, hxrow⟩ := List.any_eq_true.mp h
        exact ⟨x, hx, (rowMatch_iff _ _ _).mp hxrow⟩
      · intro _
        rfl
    · intro hc
      cases hc
    · intro x hx
      have hp := List.of_mem_filter hx
      rw [Bool.not_eq_eq_eq_not, Bool.not_true] at hp
      exact (rowMatch_eq_false_iff _ _ _).mp hp
    · intro x hx hn
      refine List.mem_filter.mpr ⟨hx, ?_⟩
      rw [Bool.not_eq_eq_eq_not, Bool.not_true]
      exact (rowMatch_eq_false_iff _ _ _).mpr hn
  · rw [if_neg h]
    refine ⟨?_, fun _ => rfl, ?_, fun x hx _ => hx⟩
    · constructor
      · intro hc
        cases hc
      · rintro ⟨x, hx, hxp⟩
        exact absurd (List.any_eq_true.mpr ⟨x, hx, (rowMatch_iff _ _ _).mpr hxp⟩) h
    · intro x hx hc
      exact h (List.any_eq_true.mpr ⟨x, hx, (rowMatch_iff _ _ _).mpr hc⟩)

/-- C8: in any reachable state, `list_tasks` returns exactly the rows
owned by the presenting owner, and the returned sequence carries strictly
increasing ids — ids are assigned by the counter at creation, so this is
insertion (creation) order. -/
theorem list_tasks_owned_in_creation_order (ops : List RepoOp)
    (owner_id : String) :
    (∀ t, t ∈ list_tasks (TaskRepo.init.run ops) owner_id ↔
      t ∈ (TaskRepo.init.run ops).tasks ∧ t.user_id = owner_id) ∧
    (list_tasks (TaskRepo.init.run ops) owner_id).Pairwise
      (fun a b => a.id < b.id) := by
  have hInv := TaskRepo.Inv.run ops
  constructor
  · intro t
    simp [list_tasks, TaskRepo.list, List.mem_filter]
  · exact List.Pairwise.sublist (List.filter_sublist _) hInv.1

/-- C9: when the title is invalid, both `create_task` and `update_task`
report the title's `ValidationError`, whatever the description — the
title is validated first. -/
theorem title_validated_before_description (s : TaskRepo)
    (owner_id : String) (task_id : Nat) (title description : String)
    (now : Nat) (msg : String) (h : validate_title title = .error msg) :
    create_task s owner_id title description now
      = .error (.ValidationError msg) ∧
    update_task s owner_id task_id title description now
      = .error (.ValidationError msg) := by
  constructor <;> simp [create_task, update_task, h]

/-- A 1001-character description, invalid by one character. -/
def overlongDescription : String := ⟨List.replicate 1001 'b'⟩

/-- C9 witness: with an empty title and an overlong description — both
fields invalid — the error reported is the title error. -/
theorem title_validated_before_description_witness :
    validate_description overlongDescription
      = .error "Description cannot exceed 1000 characters" ∧
    create_task TaskRepo.init "A" "" overlongDescription 0
      = .error (.ValidationError "Title cannot be empty") ∧
    update_task TaskRepo.init "A" 1 "" overlongDescription 0
      = .error (.ValidationError "Title cannot be empty") :=
  ⟨by rfl,
   (title_validated_before_description TaskRepo.init "A" 1 ""
     overlongDescription 0 "Title cannot be empty" (by rfl)).1,
   (title_validated_before_description TaskRepo.init "A" 1 ""
     overlongDescription 0 "Title cannot be empty" (by rfl)).2⟩

/-- C4 (counterexample): a title whose stripped length is exactly 200 but
whose raw length is 201 (two hundred `a`s and a trailing space) is
rejected by `validate_title`, refuting "a title whose trimmed length is
exactly 200 characters is accepted". -/
theorem validate_title_rejects_trimmed_200 :
    (pyStrip titleTrim200).length = 200 ∧
    validate_title titleTrim200 = .error "Title cannot exceed 200 characters" :=
  ⟨by rfl, by rfl⟩

/-! ## The client layer (`src/frontend/src/lib/api.ts`,
`src/frontend/src/components/chatbot.tsx`)

Each client function is embedded as the request it issues: method, URL and
headers. `axios` merges nothing into the `headers` option here, and
`fetch` sends exactly the headers given. -/

/-- `API_URL` with its default value (`api.ts`). -/
def API_URL : String := "http://localhost:8000"

/-- An HTTP request as the client layer builds it. -/
structure HttpRequest where
  method : String
  url : String
  headers : List (String × String)
deriving Repr, DecidableEq

/-- `getAuthHeaders` (`api.ts`): a `Bearer` Authorization header when
`getToken()` returns a token, no headers otherwise. -/
def getAuthHeaders : Option String → List (String × String)
  | some token => [("Authorization", "Bearer " ++ token)]
  | none => []

/-- `getTasks` (`api.ts`). -/
def getTasksRequest (token : Option String) (userId : String) : HttpRequest :=
  { method := "GET", url := API_URL ++ "/api/" ++ userId ++ "/tasks",
    headers := getAuthHeaders token }

/-- `createTask` (`api.ts`). -/
def createTaskRequest (token : Option String) (userId : String) : HttpRequest :=
  { method := "POST", url := API_URL ++ "/api/" ++ userId ++ "/tasks",
    headers := getAuthHeaders token }

/-- `updateTask` (`api.ts`). -/
def updateTaskRequest (token : Option String) (userId : String)
    (taskId : Nat) : HttpRequest :=
  { method := "PUT",
    url := API_URL ++ "/api/" ++ userId ++ "/tasks/" ++ toString taskId,
    headers := getAuthHeaders token }

/-- `deleteTask` (`api.ts`). -/
def deleteTaskRequest (token : Option String) (userId : String)
    (taskId : Nat) : HttpRequest :=
  { method := "DELETE",
    url := API_URL ++ "/api/" ++ userId ++ "/tasks/" ++ toString taskId,
    headers := getAuthHeaders token }

/-- `toggleTaskCompletion` (`api.ts`). -/
def toggleTaskCompletionRequest (token : Option String) (userId : String)
    (taskId : Nat) : HttpRequest :=
  { method := "PATCH",
    url := API_URL ++ "/api/" ++ userId ++ "/tasks/" ++ toString taskId
      ++ "/complete",
    headers := getAuthHeaders token }

/-- `chatWithAI` (`api.ts`). -/
def chatWithAIRequest (token : Option String) (userId : String) : HttpRequest :=
  { method := "POST", url := API_URL ++ "/api/" ++ userId ++ "/chat",
    headers := getAuthHeaders token }

/-- `sendMessage` in `chatbot.tsx`: a plain `fetch` whose only header is
`Content-Type` — it never consults `getToken`. -/
def chatbotSendMessageRequest (userId : String) : HttpRequest :=
  { method := "POST",
    url := "http://localhost:8000/api/" ++ userId ++ "/chat",
    headers := [("Content-Type", "application/json")] }

/-- The request carries `Authorization: Bearer <token>`. -/
def hasBearerAuth (r : HttpRequest) (token : String) : Prop :=
  ("Authorization", "Bearer " ++ token) ∈ r.headers

/-- C7 (counterexample): the chat widget's request carries no
Authorization header at all, refuting "every request the client layer
issues to the task and chat API carries a bearer credential". -/
theorem chatbot_chat_request_lacks_auth_header :
    ((chatbotSendMessageRequest "u1").headers.any
      (fun p => p.1 == "Authorization")) = false := by
  rfl

/-- C7 (amended): every request built by `api.ts` carries the bearer
token whenever one is stored, while the chat widget's own request never
carries an Authorization header. -/
theorem api_requests_carry_bearer_token (token userId : String)
    (taskId : Nat) :
    hasBearerAuth (getTasksRequest (some token) userId) token ∧
    hasBearerAuth (createTaskRequest (some token) userId) token ∧
    hasBearerAuth (updateTaskRequest (some token) userId taskId) token ∧
    hasBearerAuth (deleteTaskRequest (some token) userId taskId) token ∧
    hasBearerAuth (toggleTaskCompletionRequest (some token) userId taskId) token ∧
    hasBearerAuth (chatWithAIRequest (some token) userId) token ∧
    ∀ p ∈ (chatbotSendMessageRequest userId).headers, p.1 ≠ "Authorization" := by
  refine ⟨.head _, .head _, .head _, .head _, .head _, .head _, ?_⟩
  intro p hp
  simp only [chatbotSendMessageRequest, List.mem_singleton] at hp
  subst hp
  decide

/-! ## The dashboard (`handleCreateTask`) -/

/-- The `Task` interface of `api.ts` as the dashboard displays it:
timestamps travel as strings over HTTP. -/
structure ApiTask where
  id : Nat
  user_id : String
  title : String
  description : String
  completed : Bool
  created_at : String
  updated_at : String
deriving Repr, DecidableEq

/-- `handleCreateTask` in the dashboard component:
`setTasks([task, ...tasks])` — the created task is prepended to the
displayed list. -/
def handleCreateTask (task : ApiTask) (tasks : List ApiTask) : List ApiTask :=
  task :: tasks

/-- A first task, created earliest. -/
def c10Old1 : ApiTask :=
  { id := 1, user_id := "A", title := "first", description := "",
    completed := false, created_at := "2025-01-01", updated_at := "2025-01-01" }

/-- A second task. -/
def c10Old2 : ApiTask :=
  { id := 2, user_id := "A", title := "second", description := "",
    completed := false, created_at := "2025-01-02", updated_at := "2025-01-02" }

/-- The task created last. -/
def c10New : ApiTask :=
  { id := 3, user_id := "A", title := "third", description := "",
    completed := false, created_at := "2025-01-03", updated_at := "2025-01-03" }

/-- C10 (counterexample): prepending the new task onto a displayed list
that was loaded in creation-ascending order does not give the reverse of
creation-ascending order — only the new task moves to the front. -/
theorem handleCreateTask_not_reverse_ascending :
    handleCreateTask c10New [c10Old1, c10Old2]
      ≠ List.reverse [c10Old1, c10Old2, c10New] := by
  decide

/-- C10 (amended): `handleCreateTask` puts the new task at the head and
keeps the previous display below it, so a displayed list built only by
successive creations from an empty list is exactly the reverse of
creation order. -/
theorem handleCreateTask_prepends (task : ApiTask) (tasks : List ApiTask) :
    (handleCreateTask task tasks).head? = some task ∧
    (handleCreateTask task tasks).tail = tasks ∧
    ∀ created : List ApiTask,
      created.foldl (fun acc t => handleCreateTask t acc) [] = created.reverse := by
  refine ⟨rfl, rfl, ?_⟩
  intro created
  suffices h : ∀ acc : List ApiTask,
      created.foldl (fun acc t => handleCreateTask t acc) acc
        = created.reverse ++ acc by
    simpa using h []
  induction created with
  | nil => intro acc; rfl
  | cons c tl ih =>
    intro acc
    simp only [List.foldl_cons, List.reverse_cons, List.append_assoc,
      List.singleton_append]
    exact ih (handleCreateTask c acc)

end Todo

